import Mathlib

/-! The per-flow TCP session of tunnel/tcp.go.

A trace embedding of `handleTCPConn`, `relay` and `copyBuffer`.  Every call the
code makes on one of its collaborators (the proxy dialer, the SYN handle, the
logger, the buffer pool, the two connections) is an `Event`; what the
collaborators answer (the dial result, the handshake result, the results of the
`Read` and `Write` calls, the clock, the scheduler's choices between the two
goroutines) is the input of the model.  A run is the list of the events in the
order they happen, each tagged with the goroutine that performs it.
-/

namespace Tunnel

/-- One octet of a stream or of an address. -/
abbrev Byte := Nat

/-- The values of `syscall.Errno` the code names, and all the others. -/
inductive Errno where
  | EPIPE
  | ECONNRESET
  | other (n : Nat)
  deriving DecidableEq, Repr

/-- What the code can observe of a non-nil Go `error` value.
* `text`: the result of `Error()`, which also tells two values apart;
* `unreachable`: the dynamic type is `*proxy.UnreachableError`
  (the type assertion of line 39);
* `netTimeout`: `some t` when the dynamic type implements `net.Error` and
  `Timeout()` answers `t`, `none` when the assertion `err.(net.Error)` fails;
* `errnos`: the `syscall.Errno` values for which `errors.Is` answers true. -/
structure GoError where
  text : String
  unreachable : Bool
  netTimeout : Option Bool
  errnos : List Errno
  deriving DecidableEq, Repr

/-- A Go `error` interface value: `none` is `nil`. -/
abbrev Error := Option GoError

/-- The test `ne, ok := err.(net.Error); ok && ne.Timeout()` of line 90. -/
def isNetTimeout : Error → Bool
  | none => false
  | some e =>
    match e.netTimeout with
    | some t => t
    | none => false

/-- The call `errors.Is(err, target)` for a target of type `syscall.Errno`;
a nil error matches no target. -/
def errorsIs : Error → Errno → Bool
  | none, _ => false
  | some e, target => e.errnos.contains target

/-- The type `M.Network`. -/
inductive Network where
  | TCP
  | UDP
  deriving DecidableEq, Repr

/-- An address as its octets (`net.IP`, `tcpip.Address`); the nil slice is `[]`. -/
abbrev IP := List Byte

/-- The fields of `M.Metadata` the code touches; a field the composite literal
of line 29 does not name holds its zero value. -/
structure Metadata where
  Network : Network
  SrcIP : IP
  SrcPort : Nat
  DstIP : IP
  DstPort : Nat
  MidIP : IP := []
  MidPort : Nat := 0
  deriving DecidableEq, Repr

/-- The identity tuple `localConnSYN.ID()` answers (`stack.TransportEndpointID`). -/
structure TransportEndpointID where
  LocalPort : Nat
  LocalAddress : IP
  RemotePort : Nat
  RemoteAddress : IP
  deriving DecidableEq, Repr

/-- The connections of a session. -/
inductive Conn where
  /-- The connection `proxy.Dial` returns, wrapped by `newTCPTracker` (line 47). -/
  | targetConn
  /-- The connection `localConnSYN.CompleteHandshake()` returns (line 50). -/
  | conn
  deriving DecidableEq, Repr

/-- The log levels the code uses. -/
inductive Level where
  | info
  | warn
  deriving DecidableEq, Repr

/-- A call on a collaborator. -/
inductive Event where
  /-- The call `proxy.Dial(metadata)`, with the metadata as it is at the call. -/
  | dial (m : Metadata)
  /-- The call `localConnSYN.RST()`. -/
  | rst
  /-- The call `localConnSYN.CompleteHandshake()`. -/
  | completeHandshake
  /-- The call `statistic.NewTCPTracker(conn, metadata, statistic.DefaultManager)`. -/
  | newTCPTracker (m : Metadata)
  /-- A call of `log.Infof` or `log.Warnf`: the format, the metadata whose
  addresses it prints, the error it prints. -/
  | log (lvl : Level) (format : String) (m : Option Metadata) (err : Error)
  /-- The call `c.Close()`. -/
  | close (c : Conn)
  /-- The call `pool.Get(size)`, answering the buffer `buf`. -/
  | poolGet (size : Nat) (buf : Nat)
  /-- The call `pool.Put(buf)`. -/
  | poolPut (buf : Nat)
  /-- A call `c.Read(buf)` that delivered `data`. -/
  | read (c : Conn) (data : List Byte)
  /-- A call `c.Write(data)` that answered the count `nw`. -/
  | write (c : Conn) (data : List Byte) (nw : Int)
  /-- The call `c.SetReadDeadline(t)`, `t` in nanoseconds. -/
  | setReadDeadline (c : Conn) (t : Nat)
  deriving DecidableEq, Repr

/-- Who performs an event: the goroutine that runs `handleTCPConn`, or one of
the two goroutines `relay` starts (`copyA` is the one of line 66, `copyB` the one of line 74). -/
inductive Goroutine where
  | main
  | copyA
  | copyB
  deriving DecidableEq, Repr

/-- An event and the goroutine that performs it. -/
structure Step where
  task : Goroutine
  ev : Event
  deriving DecidableEq, Repr

/-- The constant `tcpWaitTimeout = 5 * time.Second`, in nanoseconds. -/
def tcpWaitTimeout : Nat := 5 * 1000000000

/-- How the last `Read` of a stream ends: with `io.EOF` or with another error. -/
inductive ReadEnd where
  | eof
  | err (e : GoError)
  deriving DecidableEq, Repr

/-- The answers of a source to the `Read` calls of one copy: the chunks of the
reads that return a nil error, then the read that ends the stream, which may
deliver bytes too. -/
structure Reader where
  chunks : List (List Byte)
  lastData : List Byte
  lastErr : ReadEnd

/-- The answers of a destination: the `i`-th `Write` call of a copy (from 0),
given `data`, answers a count and an error. -/
abbrev Writer := Nat → List Byte → Int × Error

/-- The sentinel `io.errInvalidWrite`. -/
def errInvalidWrite : GoError :=
  { text := "invalid write result", unreachable := false, netTimeout := none, errnos := [] }

/-- The sentinel `io.ErrShortWrite`. -/
def ErrShortWrite : GoError :=
  { text := "short write", unreachable := false, netTimeout := none, errnos := [] }

/-- The result of one `dst.Write(buf[0:nr])` inside the loop of `io.CopyBuffer`
after its checks: the count added to `written`, and the error that breaks the
loop if there is one. -/
def writeStep (wr : Writer) (i : Nat) (data : List Byte) : Int × Int × Error :=
  let (nw, ew) := wr i data
  let nr : Int := data.length
  let bad : Bool := decide (nw < 0) || decide (nr < nw)
  let nw1 : Int := if bad then 0 else nw
  let ew1 : Error := if bad then (match ew with | none => some errInvalidWrite | some e => some e) else ew
  match ew1 with
  | some e => (nw, nw1, some e)
  | none => if nr ≠ nw1 then (nw, nw1, some ErrShortWrite) else (nw, nw1, none)

/-- The loop of the standard library's `io.CopyBuffer(dst, src, buf)` (its
generic path): read a chunk; when it holds bytes, write them and stop on a
write error or a short write; stop when the read returned an error, which is
the copy's error unless it is `io.EOF`.  `i` counts the writes made so far,
`written` the bytes.  Answers the events, the byte count and the error. -/
def copyLoop (dst src : Conn) (wr : Writer) (lastData : List Byte) (lastErr : ReadEnd) :
    List (List Byte) → Nat → Int → List Event × Int × Error
  | [], i, written =>
    let er : Error := match lastErr with
      | .eof => none
      | .err e => some e
    if lastData.length > 0 then
      match writeStep wr i lastData with
      | (nw, nw1, some e) =>
        ([Event.read src lastData, Event.write dst lastData nw], written + nw1, some e)
      | (nw, nw1, none) =>
        ([Event.read src lastData, Event.write dst lastData nw], written + nw1, er)
    else
      ([Event.read src lastData], written, er)
  | chunk :: rest, i, written =>
    if chunk.length > 0 then
      match writeStep wr i chunk with
      | (nw, nw1, some e) =>
        ([Event.read src chunk, Event.write dst chunk nw], written + nw1, some e)
      | (nw, nw1, none) =>
        let (evs, total, err) := copyLoop dst src wr lastData lastErr rest (i + 1) (written + nw1)
        (Event.read src chunk :: Event.write dst chunk nw :: evs, total, err)
    else
      let (evs, total, err) := copyLoop dst src wr lastData lastErr rest i written
      (Event.read src chunk :: evs, total, err)

/-- The call `io.CopyBuffer(dst, src, buf)`. -/
def ioCopyBuffer (dst src : Conn) (rd : Reader) (wr : Writer) : List Event × Int × Error :=
  copyLoop dst src wr rd.lastData rd.lastErr rd.chunks 0 0

/-- What the environment answers during one call of `copyBuffer`: the buffer
`pool.Get` hands out, the reads of the source, the writes of the destination. -/
structure CopyEnv where
  buf : Nat
  reader : Reader
  writer : Writer

/-- The function `copyBuffer(dst, src)` (lines 85-98): its events, the deferred
`pool.Put(buf)` last, and the error it returns.  `RelayBufferSize` is the
constant `pool.RelayBufferSize`. -/
def copyBuffer (RelayBufferSize : Nat) (dst src : Conn) (env : CopyEnv) : List Event × Error :=
  let buf := env.buf
  let (evs, _, err) := ioCopyBuffer dst src env.reader env.writer
  let ret : Error :=
    if isNetTimeout err then none
    else if errorsIs err Errno.EPIPE then none
    else if errorsIs err Errno.ECONNRESET then none
    else err
  (Event.poolGet RelayBufferSize buf :: evs ++ [Event.poolPut buf], ret)

/-- The body of one goroutine of `relay` (lines 67-71 and 75-79): copy from
`src` to `dst`, log the error `copyBuffer` returns when it is not nil, then
set the read deadline of `dst` to `time.Now().Add(tcpWaitTimeout)`, where `now`
is what `time.Now()` answers. -/
def copier (RelayBufferSize : Nat) (dst src : Conn) (env : CopyEnv) (now : Nat) : List Event :=
  let (evs, err) := copyBuffer RelayBufferSize dst src env
  evs
    ++ (match err with
        | some e => [Event.log Level.warn "[TCP] %v" none (some e)]
        | none => [])
    ++ [Event.setReadDeadline dst (now + tcpWaitTimeout)]

/-- The merge of the steps of two goroutines that run in parallel: `true` lets
the first take its next step, `false` the second; one that has finished leaves
the other running, and when the choices run out the first runs to its end
before the second. -/
def interleave : List Bool → List Step → List Step → List Step
  | _, [], ys => ys
  | _, x :: xs, [] => x :: xs
  | [], x :: xs, y :: ys => (x :: xs) ++ (y :: ys)
  | true :: s, x :: xs, y :: ys => x :: interleave s xs (y :: ys)
  | false :: s, x :: xs, y :: ys => y :: interleave s (x :: xs) ys

/-- What the environment answers during one call of `relay`. -/
structure RelayEnv where
  /-- The goroutine of line 66, `copyBuffer(right, left)`. -/
  a : CopyEnv
  /-- The goroutine of line 74, `copyBuffer(left, right)`. -/
  b : CopyEnv
  /-- What `time.Now()` answers on line 71. -/
  nowA : Nat
  /-- What `time.Now()` answers on line 79. -/
  nowB : Nat
  /-- The scheduler's choices between the two goroutines. -/
  sched : List Bool

/-- The steps of the goroutine of line 66. -/
def relayA (RelayBufferSize : Nat) (left right : Conn) (env : RelayEnv) : List Step :=
  (copier RelayBufferSize right left env.a env.nowA).map (Step.mk Goroutine.copyA)

/-- The steps of the goroutine of line 74. -/
def relayB (RelayBufferSize : Nat) (left right : Conn) (env : RelayEnv) : List Step :=
  (copier RelayBufferSize left right env.b env.nowB).map (Step.mk Goroutine.copyB)

/-- The function `relay(left, right)` (lines 62-83): the two goroutines run in
parallel and `wg.Wait()` returns when both have finished. -/
def relay (RelayBufferSize : Nat) (left right : Conn) (env : RelayEnv) : List Step :=
  interleave env.sched (relayA RelayBufferSize left right env) (relayB RelayBufferSize left right env)

/-- What the environment answers during one call of `handleTCPConn`. -/
structure SessionEnv where
  /-- The result of `localConnSYN.ID()`. -/
  id : TransportEndpointID
  /-- The result of `proxy.Dial`: an error, or a connection, given by what
  `parseAddr(targetConn.LocalAddr())` answers for it. -/
  dial : Except GoError (IP × Nat)
  /-- The error of `localConnSYN.CompleteHandshake()`. -/
  handshake : Error
  /-- The environment of `relay`. -/
  relay : RelayEnv

/-- The metadata of lines 29-35. -/
def buildMetadata (id : TransportEndpointID) : Metadata :=
  { Network := Network.TCP
    SrcIP := id.RemoteAddress
    SrcPort := id.RemotePort
    DstIP := id.LocalAddress
    DstPort := id.LocalPort }

/-- The steps of the goroutine that runs `handleTCPConn`. -/
def onMain (evs : List Event) : List Step := evs.map (Step.mk Goroutine.main)

/-- The function `handleTCPConn(localConnSYN)` (lines 27-59).  The deferred
calls run when the function returns, the last deferred first. -/
def handleTCPConn (RelayBufferSize : Nat) (env : SessionEnv) : List Step :=
  let id := env.id
  let metadata := buildMetadata id
  match env.dial with
  | .error err =>
    onMain [Event.dial metadata]
      ++ (if !err.unreachable then onMain [Event.rst] else [])
      ++ onMain [Event.log Level.warn "[TCP] dial %s: %v" (some metadata) (some err)]
  | .ok (midIP, midPort) =>
    let metadata1 := { metadata with MidIP := midIP, MidPort := midPort }
    onMain [Event.dial metadata, Event.newTCPTracker metadata1]
      ++ (match env.handshake with
          | some err =>
            onMain [Event.completeHandshake,
              Event.log Level.warn "[TCP] localConnSYN CompleteHandshake %s: %v" (some metadata1) (some err)]
          | none =>
            onMain [Event.completeHandshake,
              Event.log Level.info "[TCP] %s <-> %s" (some metadata1) none]
              ++ relay RelayBufferSize Conn.conn Conn.targetConn env.relay
              ++ onMain [Event.close Conn.conn])
      ++ onMain [Event.close Conn.targetConn]

/-! ## Observations on a run -/

/-- How many times the event `e` happens in a run. -/
def calls (e : Event) (t : List Step) : Nat := t.countP (fun s => decide (s.ev = e))

/-- Whether `relay` was invoked in a run: one of its goroutines took a step. -/
def relayInvoked (t : List Step) : Bool := t.any (fun s => decide (s.task ≠ Goroutine.main))

/-- Whether an event is a call of `SetReadDeadline` on the connection `c`. -/
def isDeadlineOn (c : Conn) : Event → Bool
  | Event.setReadDeadline c1 _ => decide (c1 = c)
  | _ => false

/-- Whether an event is a call of `SetReadDeadline`. -/
def isDeadline : Event → Bool
  | Event.setReadDeadline _ _ => true
  | _ => false

/-- Whether an event is a call of the logger at the level `lvl`. -/
def isLog (lvl : Level) : Event → Bool
  | Event.log l _ _ _ => decide (l = lvl)
  | _ => false

/-- Whether an event is a call of `pool.Get`. -/
def isPoolGet : Event → Bool
  | Event.poolGet _ _ => true
  | _ => false

/-- Whether an event is a call of `pool.Put`. -/
def isPoolPut : Event → Bool
  | Event.poolPut _ => true
  | _ => false

/-- Whether an event is a call of `Close`. -/
def isClose : Event → Bool
  | Event.close _ => true
  | _ => false

/-- Whether an event is a call of `proxy.Dial`. -/
def isDial : Event → Bool
  | Event.dial _ => true
  | _ => false

/-- Whether an event is a `Read` or a `Write` on a connection. -/
def isReadWrite : Event → Bool
  | Event.read _ _ => true
  | Event.write _ _ _ => true
  | _ => false

/-- The bytes the `Read` calls of a run deliver from `src`, in the order of the calls. -/
def bytesRead (src : Conn) : List Event → List Byte
  | [] => []
  | Event.read c data :: rest => (if c = src then data else []) ++ bytesRead src rest
  | _ :: rest => bytesRead src rest

/-- The bytes the `Write` calls of a run put into `dst`, in the order of the
calls: of each call, the first `nw` bytes of its data. -/
def bytesWritten (dst : Conn) : List Event → List Byte
  | [] => []
  | Event.write c data nw :: rest =>
    (if c = dst then data.take nw.toNat else []) ++ bytesWritten dst rest
  | _ :: rest => bytesWritten dst rest

/-- The whole stream a source delivers: its chunks, then the bytes of its last read. -/
def Reader.stream (rd : Reader) : List Byte := rd.chunks.flatten ++ rd.lastData

/-- The error classes `copyBuffer` does not return (lines 90-96). -/
def ignorable (err : Error) : Bool :=
  isNetTimeout err || errorsIs err Errno.EPIPE || errorsIs err Errno.ECONNRESET

/-- The interleavings of two sequences of steps: each keeps its own order. -/
inductive Shuffle : List Step → List Step → List Step → Prop where
  | done : Shuffle [] [] []
  | first (x : Step) {xs ys zs : List Step} : Shuffle xs ys zs → Shuffle (x :: xs) ys (x :: zs)
  | second (y : Step) {xs ys zs : List Step} : Shuffle xs ys zs → Shuffle xs (y :: ys) (y :: zs)

/-- The kinds of events a goroutine of `relay` performs. -/
def isCopierEvent (e : Event) : Bool :=
  isReadWrite e || isPoolGet e || isPoolPut e || isLog Level.warn e || isDeadline e

/-- The destination of the copy a goroutine of `relay(left, right)` runs. -/
def copyDst (left right : Conn) : Goroutine → Conn
  | Goroutine.copyB => left
  | _ => right

/-- The source of the copy a goroutine of `relay(left, right)` runs. -/
def copySrc (left right : Conn) : Goroutine → Conn
  | Goroutine.copyB => right
  | _ => left

/-- The environment of the copy a goroutine of `relay` runs. -/
def RelayEnv.copyEnv (env : RelayEnv) : Goroutine → CopyEnv
  | Goroutine.copyB => env.b
  | _ => env.a

/-! ## Concrete runs -/

/-- The source delivers the stream 1,2,3 as [1,2] then [3] with end of stream. -/
def sampleEnv : CopyEnv :=
  { buf := 7
    reader := { chunks := [[1, 2]], lastData := [3], lastErr := ReadEnd.eof }
    writer := fun _ d => ((d.length : Int), none) }

/-- The source delivers the stream 1,2,3 as [1] then [2,3], then an empty read
with end of stream. -/
def sampleEnv2 : CopyEnv :=
  { buf := 9
    reader := { chunks := [[1], [2, 3]], lastData := [], lastErr := ReadEnd.eof }
    writer := fun _ d => ((d.length : Int), none) }

/-- A deadline error of a connection: a `net.Error` whose `Timeout()` is true. -/
def timeoutErr : GoError :=
  { text := "i/o timeout", unreachable := false, netTimeout := some true, errnos := [] }

/-- A dial error of type `*proxy.UnreachableError`. -/
def unreachableErr : GoError :=
  { text := "unreachable", unreachable := true, netTimeout := none, errnos := [] }

/-- A dial error of another type. -/
def refusedErr : GoError :=
  { text := "connection refused", unreachable := false, netTimeout := some false,
    errnos := [Errno.other 111] }

/-- A read error that `copyBuffer` propagates. -/
def brokenErr : GoError :=
  { text := "unexpected failure", unreachable := false, netTimeout := none, errnos := [] }

/-- The SYN of 10.0.0.2:5000 to 93.184.216.34:443. -/
def sampleId : TransportEndpointID :=
  { LocalPort := 443, LocalAddress := [93, 184, 216, 34], RemotePort := 5000,
    RemoteAddress := [10, 0, 0, 2] }

/-- A relay whose two copies end at end of stream. -/
def sampleRelay : RelayEnv :=
  { a := sampleEnv, b := sampleEnv2, nowA := 100, nowB := 200, sched := [true, false, false, true] }

/-- A relay whose copy from left to right ends with a timeout after two bytes,
and whose copy from right to left ends with an error that is propagated. -/
def timeoutRelay : RelayEnv :=
  { a := { buf := 1
           reader := { chunks := [[1, 2]], lastData := [], lastErr := ReadEnd.err timeoutErr }
           writer := fun _ d => ((d.length : Int), none) }
    b := { buf := 2
           reader := { chunks := [], lastData := [], lastErr := ReadEnd.err brokenErr }
           writer := fun _ d => ((d.length : Int), none) }
    nowA := 100, nowB := 200, sched := [false, true, true, false] }

/-- A session whose dial fails with an unreachable error. -/
def sessionUnreachable : SessionEnv :=
  { id := sampleId, dial := Except.error unreachableErr, handshake := none, relay := sampleRelay }

/-- A session whose dial fails with another error. -/
def sessionRefused : SessionEnv :=
  { id := sampleId, dial := Except.error refusedErr, handshake := none, relay := sampleRelay }

/-- A session whose dial and handshake succeed and whose relay meets errors. -/
def sessionRelayed : SessionEnv :=
  { id := sampleId, dial := Except.ok ([10, 0, 0, 1], 40000), handshake := none,
    relay := timeoutRelay }

/-- A session whose dial succeeds and whose handshake fails. -/
def sessionNoHandshake : SessionEnv :=
  { id := sampleId, dial := Except.ok ([10, 0, 0, 1], 40000), handshake := some brokenErr,
    relay := sampleRelay }

/-! ## Interleavings -/

theorem interleave_perm (s : List Bool) (xs ys : List Step) :
    List.Perm (interleave s xs ys) (xs ++ ys) := by
  induction s, xs, ys using interleave.induct with
  | case1 s ys => simp [interleave]
  | case2 s x xs => simp [interleave]
  | case3 x xs y ys => simp [interleave]
  | case4 s x xs y ys ih =>
    rw [interleave]
    exact List.Perm.cons x ih
  | case5 s x xs y ys ih =>
    rw [interleave]
    exact (List.Perm.cons y ih).trans (List.perm_middle).symm

theorem mem_interleave (s : List Bool) (xs ys : List Step) (a : Step) :
    a ∈ interleave s xs ys ↔ a ∈ xs ∨ a ∈ ys := by
  rw [(interleave_perm s xs ys).mem_iff, List.mem_append]

theorem countP_interleave (p : Step → Bool) (s : List Bool) (xs ys : List Step) :
    (interleave s xs ys).countP p = xs.countP p + ys.countP p := by
  rw [(interleave_perm s xs ys).countP_eq, List.countP_append]

theorem filter_interleave_left (p : Step → Bool) (s : List Bool) (xs ys : List Step)
    (hx : ∀ x ∈ xs, p x = true) (hy : ∀ y ∈ ys, p y = false) :
    (interleave s xs ys).filter p = xs := by
  induction s, xs, ys using interleave.induct with
  | case1 s ys =>
    simp only [interleave]
    exact List.filter_eq_nil_iff.mpr (fun y hy1 => by simp [hy y hy1])
  | case2 s x xs =>
    simp only [interleave]
    exact List.filter_eq_self.mpr hx
  | case3 x xs y ys =>
    simp only [interleave, List.filter_append]
    rw [List.filter_eq_self.mpr hx, List.filter_eq_nil_iff.mpr (fun z hz => by simp [hy z hz])]
    simp
  | case4 s x xs y ys ih =>
    rw [interleave, List.filter_cons_of_pos (hx x (List.mem_cons_self _ _))]
    rw [ih (fun z hz => hx z (List.mem_cons_of_mem _ hz)) hy]
  | case5 s x xs y ys ih =>
    have hyy : ¬ (p y = true) := by simp [hy y (List.mem_cons_self _ _)]
    rw [interleave, List.filter_cons_of_neg hyy]
    exact ih hx (fun z hz => hy z (List.mem_cons_of_mem _ hz))

theorem filter_interleave_right (p : Step → Bool) (s : List Bool) (xs ys : List Step)
    (hx : ∀ x ∈ xs, p x = false) (hy : ∀ y ∈ ys, p y = true) :
    (interleave s xs ys).filter p = ys := by
  induction s, xs, ys using interleave.induct with
  | case1 s ys =>
    simp only [interleave]
    exact List.filter_eq_self.mpr hy
  | case2 s x xs =>
    simp only [interleave]
    exact List.filter_eq_nil_iff.mpr (fun z hz => by simp [hx z hz])
  | case3 x xs y ys =>
    simp only [interleave, List.filter_append]
    rw [List.filter_eq_self.mpr hy, List.filter_eq_nil_iff.mpr (fun z hz => by simp [hx z hz])]
    simp
  | case4 s x xs y ys ih =>
    have hxx : ¬ (p x = true) := by simp [hx x (List.mem_cons_self _ _)]
    rw [interleave, List.filter_cons_of_neg hxx]
    exact ih (fun z hz => hx z (List.mem_cons_of_mem _ hz)) hy
  | case5 s x xs y ys ih =>
    rw [interleave, List.filter_cons_of_pos (hy y (List.mem_cons_self _ _))]
    rw [ih hx (fun z hz => hy z (List.mem_cons_of_mem _ hz))]

theorem interleave_nil_right (s : List Bool) (xs : List Step) : interleave s xs [] = xs := by
  cases xs <;> simp [interleave]

theorem interleave_nil_left (s : List Bool) (ys : List Step) : interleave s [] ys = ys := by
  simp [interleave]

/-- Every interleaving of two sequences is the merge under some choices of the scheduler. -/
theorem exists_sched_of_shuffle {xs ys zs : List Step} (h : Shuffle xs ys zs) :
    ∃ s, interleave s xs ys = zs := by
  induction h with
  | done => exact ⟨[], by simp [interleave]⟩
  | @first x xs ys zs _ ih =>
    obtain ⟨s, hs⟩ := ih
    cases ys with
    | nil =>
      rw [interleave_nil_right] at hs
      exact ⟨[], by rw [interleave_nil_right, hs]⟩
    | cons y ys => exact ⟨true :: s, by rw [interleave, hs]⟩
  | @second y xs ys zs _ ih =>
    obtain ⟨s, hs⟩ := ih
    cases xs with
    | nil =>
      rw [interleave_nil_left] at hs
      exact ⟨[], by rw [interleave_nil_left, hs]⟩
    | cons x xs => exact ⟨false :: s, by rw [interleave, hs]⟩

/-- Every merge is an interleaving. -/
theorem shuffle_interleave (s : List Bool) (xs ys : List Step) :
    Shuffle xs ys (interleave s xs ys) := by
  have hl : ∀ l : List Step, Shuffle l [] l := by
    intro l
    induction l with
    | nil => exact Shuffle.done
    | cons a l ih => exact Shuffle.first a ih
  have hr : ∀ l : List Step, Shuffle [] l l := by
    intro l
    induction l with
    | nil => exact Shuffle.done
    | cons a l ih => exact Shuffle.second a ih
  have happ : ∀ l r : List Step, Shuffle l r (l ++ r) := by
    intro l r
    induction l with
    | nil => exact hr r
    | cons a l ih => exact Shuffle.first a ih
  induction s, xs, ys using interleave.induct with
  | case1 s ys => rw [interleave_nil_left]; exact hr ys
  | case2 s x xs => rw [interleave_nil_right]; exact hl _
  | case3 x xs y ys => rw [interleave]; exact happ _ _
  | case4 s x xs y ys ih => rw [interleave]; exact Shuffle.first x ih
  | case5 s x xs y ys ih => rw [interleave]; exact Shuffle.second y ih

theorem eq_of_append_singleton {α : Type} (X P Q : List α) (d s : α)
    (h : X ++ [d] = P ++ s :: Q) (hs : s ∉ X) : P = X ∧ s = d ∧ Q = [] := by
  induction X generalizing P with
  | nil =>
    cases P with
    | nil =>
      simp only [List.nil_append, List.cons.injEq] at h
      exact ⟨rfl, h.1.symm, h.2.symm⟩
    | cons p P =>
      simp only [List.nil_append, List.cons_append, List.cons.injEq] at h
      have := h.2
      cases P <;> simp at this
  | cons x X ih =>
    cases P with
    | nil =>
      simp only [List.cons_append, List.nil_append, List.cons.injEq] at h
      exact absurd (h.1 ▸ List.mem_cons_self x X) hs
    | cons p P =>
      simp only [List.cons_append, List.cons.injEq] at h
      obtain ⟨hp, h⟩ := h
      have := ih P h (fun hm => hs (List.mem_cons_of_mem _ hm))
      exact ⟨by rw [hp, this.1], this.2⟩

/-! ## The copy loop -/

theorem writeStep_full (wr : Writer) (i : Nat) (d : List Byte)
    (hw : wr i d = ((d.length : Int), none)) :
    writeStep wr i d = ((d.length : Int), (d.length : Int), none) := by
  have h0 : ¬ ((d.length : Int) < 0) := by omega
  simp [writeStep, hw, h0]

theorem copyLoop_full (dst src : Conn) (wr : Writer) (lastData : List Byte) (lastErr : ReadEnd)
    (hw : ∀ i d, wr i d = ((d.length : Int), none)) (chunks : List (List Byte)) (i : Nat) (w : Int) :
    bytesWritten dst (copyLoop dst src wr lastData lastErr chunks i w).1 = chunks.flatten ++ lastData
    ∧ bytesRead src (copyLoop dst src wr lastData lastErr chunks i w).1 = chunks.flatten ++ lastData := by
  induction chunks generalizing i w with
  | nil =>
    unfold copyLoop
    by_cases hl : lastData.length > 0
    · simp [hl, writeStep_full wr i lastData (hw i lastData), bytesWritten, bytesRead]
    · have : lastData = [] := by
        cases lastData with
        | nil => rfl
        | cons a l => simp at hl
      subst this
      simp [bytesWritten, bytesRead]
  | cons c rest ih =>
    unfold copyLoop
    by_cases hl : c.length > 0
    · simp only [hl, if_true, writeStep_full wr i c (hw i c)]
      have h := ih (i + 1) (w + (c.length : Int))
      simp [bytesWritten, bytesRead, h.1, h.2]
    · have : c = [] := by
        cases c with
        | nil => rfl
        | cons a l => simp at hl
      subst this
      have h := ih i w
      simp [bytesWritten, bytesRead, h.1, h.2]

theorem copyLoop_isReadWrite (dst src : Conn) (wr : Writer) (lastData : List Byte) (lastErr : ReadEnd)
    (chunks : List (List Byte)) (i : Nat) (w : Int) :
    ∀ e ∈ (copyLoop dst src wr lastData lastErr chunks i w).1, isReadWrite e = true := by
  induction chunks generalizing i w with
  | nil =>
    unfold copyLoop
    by_cases hl : lastData.length > 0
    · simp only [hl, if_true]
      rcases hws : writeStep wr i lastData with ⟨nw, nw1, _ | e⟩ <;> simp [isReadWrite]
    · simp [hl, isReadWrite]
  | cons c rest ih =>
    unfold copyLoop
    by_cases hl : c.length > 0
    · simp only [hl, if_true]
      rcases hws : writeStep wr i c with ⟨nw, nw1, _ | e⟩
      · have h := ih (i + 1) (w + nw1)
        simp only [List.mem_cons]
        rintro e (rfl | rfl | he)
        · rfl
        · rfl
        · exact h e he
      · simp [isReadWrite]
    · simp only [hl, if_false]
      have h := ih i w
      simp only [List.mem_cons]
      rintro e (rfl | he)
      · rfl
      · exact h e he

theorem copyBuffer_events (R : Nat) (dst src : Conn) (env : CopyEnv) :
    (copyBuffer R dst src env).1
      = Event.poolGet R env.buf :: (ioCopyBuffer dst src env.reader env.writer).1
          ++ [Event.poolPut env.buf] := by
  simp [copyBuffer]

theorem copyBuffer_ret (R : Nat) (dst src : Conn) (env : CopyEnv) :
    (copyBuffer R dst src env).2
      = if ignorable (ioCopyBuffer dst src env.reader env.writer).2.2 = true then none
        else (ioCopyBuffer dst src env.reader env.writer).2.2 := by
  simp only [copyBuffer, ignorable]
  generalize (ioCopyBuffer dst src env.reader env.writer).2.2 = err
  by_cases h1 : isNetTimeout err = true <;>
  by_cases h2 : errorsIs err Errno.EPIPE = true <;>
  by_cases h3 : errorsIs err Errno.ECONNRESET = true <;>
  simp [h1, h2, h3]

/-! ## The half-duplex copier -/

/-- C5: `copyBuffer` returns nil exactly when the copy ended with no error
(plain end of stream) or with a timeout error, a broken-pipe error or a
connection-reset error; every other error the copy ends with is returned
unchanged. -/
theorem copyBuffer_nil_iff (R : Nat) (dst src : Conn) (env : CopyEnv) :
    ((copyBuffer R dst src env).2 = none ↔
        ((ioCopyBuffer dst src env.reader env.writer).2.2 = none
          ∨ isNetTimeout (ioCopyBuffer dst src env.reader env.writer).2.2 = true
          ∨ errorsIs (ioCopyBuffer dst src env.reader env.writer).2.2 Errno.EPIPE = true
          ∨ errorsIs (ioCopyBuffer dst src env.reader env.writer).2.2 Errno.ECONNRESET = true))
    ∧ (∀ e : GoError, (ioCopyBuffer dst src env.reader env.writer).2.2 = some e →
        isNetTimeout (some e) = false → errorsIs (some e) Errno.EPIPE = false →
        errorsIs (some e) Errno.ECONNRESET = false →
        (copyBuffer R dst src env).2 = some e) := by
  rw [copyBuffer_ret]
  generalize (ioCopyBuffer dst src env.reader env.writer).2.2 = err
  constructor
  · cases err with
    | none => simp
    | some e =>
      by_cases h : ignorable (some e) = true
      · simp only [h, if_true, true_iff]
        simp only [ignorable, Bool.or_eq_true] at h
        rcases h with (h | h) | h
        · exact Or.inr (Or.inl h)
        · exact Or.inr (Or.inr (Or.inl h))
        · exact Or.inr (Or.inr (Or.inr h))
      · simp only [h]
        simp only [ignorable, Bool.or_eq_true, not_or] at h
        simp [h.1.1, h.1.2, h.2]
  · intro e he h1 h2 h3
    subst he
    simp [ignorable, h1, h2, h3]

/-- C9: when every write succeeds in full, the bytes `copyBuffer` writes to the
destination are the bytes it reads from the source, in the same order: both are
the stream the source delivers, so two sources that deliver the same stream in
different chunks give the same bytes at the destination. -/
theorem copyBuffer_preserves_stream (R : Nat) (dst src : Conn) (env env2 : CopyEnv)
    (hw : ∀ i d, env.writer i d = ((d.length : Int), none))
    (hw2 : ∀ i d, env2.writer i d = ((d.length : Int), none))
    (hs : env.reader.stream = env2.reader.stream) :
    bytesWritten dst (copyBuffer R dst src env).1 = bytesRead src (copyBuffer R dst src env).1
    ∧ bytesRead src (copyBuffer R dst src env).1 = env.reader.stream
    ∧ bytesWritten dst (copyBuffer R dst src env2).1 = bytesWritten dst (copyBuffer R dst src env).1 := by
  have key : ∀ en : CopyEnv, (∀ i d, en.writer i d = ((d.length : Int), none)) →
      bytesWritten dst (copyBuffer R dst src en).1 = en.reader.stream
      ∧ bytesRead src (copyBuffer R dst src en).1 = en.reader.stream := by
    intro en hen
    have h := copyLoop_full dst src en.writer en.reader.lastData en.reader.lastErr hen
      en.reader.chunks 0 0
    have hW : ∀ l : List Event, bytesWritten dst (l ++ [Event.poolPut en.buf]) = bytesWritten dst l := by
      intro l
      induction l with
      | nil => simp [bytesWritten]
      | cons a l ih => cases a <;> simp [bytesWritten, ih]
    have hR : ∀ l : List Event, bytesRead src (l ++ [Event.poolPut en.buf]) = bytesRead src l := by
      intro l
      induction l with
      | nil => simp [bytesRead]
      | cons a l ih => cases a <;> simp [bytesRead, ih]
    rw [copyBuffer_events, List.cons_append]
    rw [show bytesWritten dst (Event.poolGet R en.buf ::
          ((ioCopyBuffer dst src en.reader en.writer).1 ++ [Event.poolPut en.buf]))
        = bytesWritten dst ((ioCopyBuffer dst src en.reader en.writer).1 ++ [Event.poolPut en.buf])
        from by simp [bytesWritten]]
    rw [show bytesRead src (Event.poolGet R en.buf ::
          ((ioCopyBuffer dst src en.reader en.writer).1 ++ [Event.poolPut en.buf]))
        = bytesRead src ((ioCopyBuffer dst src en.reader en.writer).1 ++ [Event.poolPut en.buf])
        from by simp [bytesRead]]
    rw [hW, hR]
    exact h
  have k1 := key env hw
  have k2 := key env2 hw2
  refine ⟨by rw [k1.1, k1.2], k1.2, ?_⟩
  rw [k1.1, k2.1, hs]

theorem copyBuffer_preserves_stream_witness :
    bytesWritten Conn.targetConn (copyBuffer 20480 Conn.targetConn Conn.conn sampleEnv).1
      = bytesRead Conn.conn (copyBuffer 20480 Conn.targetConn Conn.conn sampleEnv).1
    ∧ bytesRead Conn.conn (copyBuffer 20480 Conn.targetConn Conn.conn sampleEnv).1
      = sampleEnv.reader.stream
    ∧ bytesWritten Conn.targetConn (copyBuffer 20480 Conn.targetConn Conn.conn sampleEnv2).1
      = bytesWritten Conn.targetConn (copyBuffer 20480 Conn.targetConn Conn.conn sampleEnv).1 :=
  copyBuffer_preserves_stream 20480 Conn.targetConn Conn.conn sampleEnv sampleEnv2
    (fun _ _ => rfl) (fun _ _ => rfl) (by decide)

/-- C10: every call of `copyBuffer` first takes one buffer of `RelayBufferSize`
bytes from the pool, then copies, and last gives that same buffer back; the
copy itself makes no call on the pool, so on every way the copy ends there is
exactly one `pool.Get` and exactly one `pool.Put`. -/
theorem copyBuffer_pool_once (R : Nat) (dst src : Conn) (env : CopyEnv) :
    (∃ evs : List Event,
        (copyBuffer R dst src env).1 = Event.poolGet R env.buf :: evs ++ [Event.poolPut env.buf]
        ∧ ∀ e ∈ evs, isPoolGet e = false ∧ isPoolPut e = false)
    ∧ (copyBuffer R dst src env).1.countP isPoolGet = 1
    ∧ (copyBuffer R dst src env).1.countP isPoolPut = 1 := by
  have hio := copyLoop_isReadWrite dst src env.writer env.reader.lastData env.reader.lastErr
    env.reader.chunks 0 0
  have hno : ∀ e ∈ (ioCopyBuffer dst src env.reader env.writer).1,
      isPoolGet e = false ∧ isPoolPut e = false := by
    intro e he
    have := hio e he
    cases e <;> simp [isReadWrite, isPoolGet, isPoolPut] at this ⊢
  refine ⟨⟨_, copyBuffer_events R dst src env, hno⟩, ?_, ?_⟩
  · rw [copyBuffer_events]
    have : (ioCopyBuffer dst src env.reader env.writer).1.countP isPoolGet = 0 :=
      List.countP_eq_zero.mpr (fun e he => by simp [(hno e he).1])
    simp [List.countP_cons, List.countP_append, this, isPoolGet]
  · rw [copyBuffer_events]
    have : (ioCopyBuffer dst src env.reader env.writer).1.countP isPoolPut = 0 :=
      List.countP_eq_zero.mpr (fun e he => by simp [(hno e he).2])
    simp [List.countP_cons, List.countP_append, this, isPoolPut]

/-! ## What the goroutines of `relay` do -/

theorem copier_events (R : Nat) (dst src : Conn) (env : CopyEnv) (now : Nat) :
    ∀ e ∈ copier R dst src env now, isCopierEvent e = true := by
  intro e he
  have hio := copyLoop_isReadWrite dst src env.writer env.reader.lastData env.reader.lastErr
    env.reader.chunks 0 0
  unfold copier at he
  simp only [copyBuffer_events, List.mem_append, List.mem_cons, List.mem_singleton,
    List.not_mem_nil, or_false] at he
  rcases he with (((rfl | h) | rfl) | h) | rfl
  · simp [isCopierEvent, isPoolGet]
  · have := hio e h
    simp [isCopierEvent, this]
  · simp [isCopierEvent, isPoolPut]
  · cases hret : (copyBuffer R dst src env).2 with
    | none => simp [hret] at h
    | some e1 =>
      simp only [hret, List.mem_singleton] at h
      subst h
      simp [isCopierEvent, isLog]
  · simp [isCopierEvent, isDeadline]

theorem relay_steps (R : Nat) (left right : Conn) (env : RelayEnv) :
    ∀ s ∈ relay R left right env,
      (s.task = Goroutine.copyA ∨ s.task = Goroutine.copyB) ∧ isCopierEvent s.ev = true := by
  intro s hs
  rw [relay, mem_interleave] at hs
  rcases hs with hs | hs
  · simp only [relayA, List.mem_map] at hs
    obtain ⟨e, he, rfl⟩ := hs
    exact ⟨Or.inl rfl, copier_events _ _ _ _ _ e he⟩
  · simp only [relayB, List.mem_map] at hs
    obtain ⟨e, he, rfl⟩ := hs
    exact ⟨Or.inr rfl, copier_events _ _ _ _ _ e he⟩

theorem relay_invoked (R : Nat) (left right : Conn) (env : RelayEnv) :
    ⟨Goroutine.copyA, Event.poolGet R env.a.buf⟩ ∈ relay R left right env := by
  rw [relay, mem_interleave]
  left
  simp [relayA, copier, copyBuffer_events]

/-- When the dial and the handshake succeed, `relay` is invoked. -/
theorem relayInvoked_of_success (R : Nat) (env : SessionEnv) (mid : IP × Nat)
    (hd : env.dial = Except.ok mid) (hh : env.handshake = none) :
    relayInvoked (handleTCPConn R env) = true := by
  obtain ⟨midIP, midPort⟩ := mid
  have hm := relay_invoked R Conn.conn Conn.targetConn env.relay
  simp only [relayInvoked, List.any_eq_true, decide_eq_true_eq]
  refine ⟨⟨Goroutine.copyA, Event.poolGet R env.relay.a.buf⟩, ?_, by simp⟩
  simp only [handleTCPConn, hd, hh, List.mem_append]
  exact Or.inl (Or.inr (Or.inl (Or.inr hm)))

theorem calls_relay_zero (R : Nat) (left right : Conn) (env : RelayEnv) (e : Event)
    (he : isCopierEvent e = false) : calls e (relay R left right env) = 0 := by
  unfold calls
  rw [List.countP_eq_zero]
  intro s hs
  have h := (relay_steps R left right env s hs).2
  simp only [decide_eq_true_eq]
  intro hse
  rw [hse, he] at h
  cases h

theorem calls_append (e : Event) (t u : List Step) : calls e (t ++ u) = calls e t + calls e u := by
  simp [calls, List.countP_append]

/-! ## The session orchestrator -/

/-- C1: when `proxy.Dial` fails with an error of the unreachable kind,
`handleTCPConn` never calls `RST`, never calls `CompleteHandshake` and never
invokes `relay`: it dials, logs the failure and returns. -/
theorem handleTCPConn_dial_unreachable (R : Nat) (env : SessionEnv) (err : GoError)
    (hd : env.dial = Except.error err) (hu : err.unreachable = true) :
    calls Event.rst (handleTCPConn R env) = 0
    ∧ calls Event.completeHandshake (handleTCPConn R env) = 0
    ∧ relayInvoked (handleTCPConn R env) = false
    ∧ handleTCPConn R env
        = onMain [Event.dial (buildMetadata env.id),
            Event.log Level.warn "[TCP] dial %s: %v" (some (buildMetadata env.id)) (some err)] := by
  simp [handleTCPConn, hd, hu, onMain, calls, relayInvoked]

/-- C2: when `proxy.Dial` fails with an error that is not of the unreachable
kind, `handleTCPConn` calls `RST` exactly once, never calls `CompleteHandshake`
and never invokes `relay`: it dials, resets, logs the failure and returns. -/
theorem handleTCPConn_dial_other (R : Nat) (env : SessionEnv) (err : GoError)
    (hd : env.dial = Except.error err) (hu : err.unreachable = false) :
    calls Event.rst (handleTCPConn R env) = 1
    ∧ calls Event.completeHandshake (handleTCPConn R env) = 0
    ∧ relayInvoked (handleTCPConn R env) = false
    ∧ handleTCPConn R env
        = onMain [Event.dial (buildMetadata env.id), Event.rst,
            Event.log Level.warn "[TCP] dial %s: %v" (some (buildMetadata env.id)) (some err)] := by
  simp [handleTCPConn, hd, hu, onMain, calls, relayInvoked]

/-- C3: when the dial and the local handshake both succeed, `handleTCPConn`
calls `Close` exactly once on the tracked outbound connection and exactly once
on the local connection, whatever happens in `relay`; the two calls are the
last things it does, and nothing before them is a `Close`. -/
theorem handleTCPConn_success_closes (R : Nat) (env : SessionEnv) (mid : IP × Nat)
    (hd : env.dial = Except.ok mid) (hh : env.handshake = none) :
    calls (Event.close Conn.targetConn) (handleTCPConn R env) = 1
    ∧ calls (Event.close Conn.conn) (handleTCPConn R env) = 1
    ∧ ∃ pre : List Step,
        handleTCPConn R env = pre ++ onMain [Event.close Conn.conn, Event.close Conn.targetConn]
        ∧ ∀ s ∈ pre, isClose s.ev = false := by
  obtain ⟨midIP, midPort⟩ := mid
  have e1 : calls (Event.close Conn.targetConn) (relay R Conn.conn Conn.targetConn env.relay) = 0 :=
    calls_relay_zero _ _ _ _ _ (by decide)
  have e2 : calls (Event.close Conn.conn) (relay R Conn.conn Conn.targetConn env.relay) = 0 :=
    calls_relay_zero _ _ _ _ _ (by decide)
  refine ⟨?_, ?_, ?_⟩
  · simp only [handleTCPConn, hd, hh, calls_append, e1]
    simp [calls, onMain]
  · simp only [handleTCPConn, hd, hh, calls_append, e2]
    simp [calls, onMain]
  · refine ⟨onMain [Event.dial (buildMetadata env.id),
        Event.newTCPTracker { buildMetadata env.id with MidIP := midIP, MidPort := midPort },
        Event.completeHandshake,
        Event.log Level.info "[TCP] %s <-> %s"
          (some { buildMetadata env.id with MidIP := midIP, MidPort := midPort }) none]
        ++ relay R Conn.conn Conn.targetConn env.relay, ?_, ?_⟩
    · simp [handleTCPConn, hd, hh, onMain]
    · intro s hs
      rw [List.mem_append] at hs
      rcases hs with hs | hs
      · simp only [onMain, List.map_cons, List.map_nil, List.mem_cons, List.mem_singleton,
          List.not_mem_nil, or_false] at hs
        rcases hs with rfl | rfl | rfl | rfl <;> rfl
      · have h := (relay_steps R _ _ env.relay s hs).2
        cases hev : s.ev <;> simp [hev, isCopierEvent, isReadWrite, isPoolGet, isPoolPut, isLog, isDeadline, isClose] at h ⊢

/-- C4: when the dial succeeds and `CompleteHandshake` returns an error,
`handleTCPConn` closes the outbound connection exactly once, never invokes
`relay`, never calls `RST` and closes no local connection. -/
theorem handleTCPConn_handshake_failure (R : Nat) (env : SessionEnv) (mid : IP × Nat)
    (err : GoError) (hd : env.dial = Except.ok mid) (hh : env.handshake = some err) :
    calls (Event.close Conn.targetConn) (handleTCPConn R env) = 1
    ∧ relayInvoked (handleTCPConn R env) = false
    ∧ calls Event.rst (handleTCPConn R env) = 0
    ∧ calls (Event.close Conn.conn) (handleTCPConn R env) = 0
    ∧ handleTCPConn R env
        = onMain [Event.dial (buildMetadata env.id),
            Event.newTCPTracker { buildMetadata env.id with MidIP := mid.1, MidPort := mid.2 },
            Event.completeHandshake,
            Event.log Level.warn "[TCP] localConnSYN CompleteHandshake %s: %v"
              (some { buildMetadata env.id with MidIP := mid.1, MidPort := mid.2 }) (some err),
            Event.close Conn.targetConn] := by
  obtain ⟨midIP, midPort⟩ := mid
  simp [handleTCPConn, hd, hh, onMain, calls, relayInvoked]

/-- C6: the first thing `handleTCPConn` does is the one call of `proxy.Dial`,
with a metadata whose network is TCP, whose source is the remote address and
port of the SYN identity, whose destination is its local address and port,
and whose mid fields are still unset. -/
theorem handleTCPConn_dial_metadata (R : Nat) (env : SessionEnv) :
    ∃ (m : Metadata) (rest : List Step),
      handleTCPConn R env = ⟨Goroutine.main, Event.dial m⟩ :: rest
      ∧ m.Network = Network.TCP
      ∧ m.SrcIP = env.id.RemoteAddress ∧ m.SrcPort = env.id.RemotePort
      ∧ m.DstIP = env.id.LocalAddress ∧ m.DstPort = env.id.LocalPort
      ∧ m.MidIP = [] ∧ m.MidPort = 0
      ∧ ∀ s ∈ rest, isDial s.ev = false := by
  refine ⟨buildMetadata env.id, (handleTCPConn R env).tail, ?_, rfl, rfl, rfl, rfl, rfl, rfl, rfl, ?_⟩
  · cases hd : env.dial with
    | error err => simp [handleTCPConn, hd, onMain]
    | ok mid => simp [handleTCPConn, hd, onMain]
  · intro s hs
    cases hd : env.dial with
    | error err =>
      cases hu : err.unreachable <;>
        simp only [handleTCPConn, hd, hu, onMain, List.map_cons, List.map_nil, List.cons_append, List.nil_append, List.tail_cons, List.mem_cons, List.mem_singleton, List.not_mem_nil, or_false, Bool.not_true, Bool.not_false, if_true, if_false, Bool.false_eq_true, List.append_nil] at hs
      · rcases hs with rfl | rfl <;> rfl
      · subst hs; rfl
    | ok mid =>
      obtain ⟨midIP, midPort⟩ := mid
      cases hh : env.handshake with
      | some err =>
        simp only [handleTCPConn, hd, hh, onMain, List.map_cons, List.map_nil, List.cons_append, List.nil_append, List.tail_cons, List.mem_cons, List.mem_singleton, List.not_mem_nil, or_false] at hs
        rcases hs with rfl | rfl | rfl | rfl <;> rfl
      | none =>
        simp only [handleTCPConn, hd, hh, onMain, List.map_cons, List.map_nil, List.cons_append, List.nil_append, List.tail_cons, List.mem_cons, List.mem_singleton, List.mem_append, List.not_mem_nil, or_false] at hs
        rcases hs with rfl | rfl | rfl | (hs | rfl) | rfl
        · rfl
        · rfl
        · rfl
        · have h := (relay_steps R _ _ env.relay s hs).2
          cases hev : s.ev <;> simp [hev, isCopierEvent, isReadWrite, isPoolGet, isPoolPut, isLog, isDeadline, isDial] at h ⊢
        · rfl
        · rfl

/-! ## The relay engine -/

theorem copier_split (R : Nat) (dst src : Conn) (env : CopyEnv) (now : Nat) :
    ∃ lg : List Event,
      copier R dst src env now
        = ((copyBuffer R dst src env).1 ++ lg) ++ [Event.setReadDeadline dst (now + tcpWaitTimeout)]
      ∧ (∀ e ∈ (copyBuffer R dst src env).1 ++ lg, isDeadline e = false)
      ∧ ((copyBuffer R dst src env).2 = none → lg = []) := by
  have hio := copyLoop_isReadWrite dst src env.writer env.reader.lastData env.reader.lastErr
    env.reader.chunks 0 0
  have hcb : ∀ e ∈ (copyBuffer R dst src env).1, isDeadline e = false := by
    intro e he
    rw [copyBuffer_events] at he
    simp only [List.cons_append, List.mem_cons, List.mem_append, List.mem_singleton,
      List.not_mem_nil, or_false] at he
    rcases he with rfl | he | rfl
    · rfl
    · have := hio e he
      cases e <;> simp [isReadWrite, isDeadline] at this ⊢
    · rfl
  cases hret : (copyBuffer R dst src env).2 with
  | none =>
    refine ⟨[], ?_, ?_, fun _ => rfl⟩
    · simp [copier, hret]
    · simpa using hcb
  | some e1 =>
    refine ⟨[Event.log Level.warn "[TCP] %v" none (some e1)], ?_, ?_, fun h => by cases h⟩
    · simp [copier, hret]
    · intro e he
      rw [List.mem_append, List.mem_singleton] at he
      rcases he with he | rfl
      · exact hcb e he
      · rfl

theorem filter_relay_copyA (R : Nat) (left right : Conn) (env : RelayEnv) :
    (relay R left right env).filter (fun s => decide (s.task = Goroutine.copyA))
      = relayA R left right env := by
  apply filter_interleave_left
  · intro x hx
    simp only [relayA, List.mem_map] at hx
    obtain ⟨e, _, rfl⟩ := hx
    rfl
  · intro y hy
    simp only [relayB, List.mem_map] at hy
    obtain ⟨e, _, rfl⟩ := hy
    rfl

theorem filter_relay_copyB (R : Nat) (left right : Conn) (env : RelayEnv) :
    (relay R left right env).filter (fun s => decide (s.task = Goroutine.copyB))
      = relayB R left right env := by
  apply filter_interleave_right
  · intro x hx
    simp only [relayA, List.mem_map] at hx
    obtain ⟨e, _, rfl⟩ := hx
    rfl
  · intro y hy
    simp only [relayB, List.mem_map] at hy
    obtain ⟨e, _, rfl⟩ := hy
    rfl

/-- In the steps of one goroutine, the call of `SetReadDeadline` is the last
one and comes after all the events of its `copyBuffer`. -/
theorem deadline_last (g : Goroutine) (R : Nat) (dst src : Conn) (env : CopyEnv) (now : Nat)
    (P Q : List Step) (c : Conn) (t : Nat)
    (h : (copier R dst src env now).map (Step.mk g) = P ++ ⟨g, Event.setReadDeadline c t⟩ :: Q) :
    c = dst ∧ t = now + tcpWaitTimeout
    ∧ List.IsPrefix ((copyBuffer R dst src env).1.map (Step.mk g)) P ∧ Q = [] := by
  obtain ⟨lg, hsplit, hno, _⟩ := copier_split R dst src env now
  rw [hsplit, List.map_append, List.map_singleton] at h
  have hs : (⟨g, Event.setReadDeadline c t⟩ : Step) ∉
      ((copyBuffer R dst src env).1 ++ lg).map (Step.mk g) := by
    intro hm
    rw [List.mem_map] at hm
    obtain ⟨e, he, heq⟩ := hm
    have h1 := hno e he
    simp only [Step.mk.injEq, true_and] at heq
    rw [heq] at h1
    cases h1
  obtain ⟨hP, hsd, hQ⟩ := eq_of_append_singleton _ _ _ _ _ h hs
  simp only [Step.mk.injEq, Event.setReadDeadline.injEq, true_and] at hsd
  refine ⟨hsd.1, hsd.2, ?_, hQ⟩
  rw [hP, List.map_append]
  exact List.prefix_append _ _

theorem countP_deadline_copier (g : Goroutine) (R : Nat) (dst src : Conn) (env : CopyEnv)
    (now : Nat) (c : Conn) :
    ((copier R dst src env now).map (Step.mk g)).countP (fun s => isDeadlineOn c s.ev)
      = if dst = c then 1 else 0 := by
  obtain ⟨lg, hsplit, hno, _⟩ := copier_split R dst src env now
  rw [hsplit, List.map_append, List.countP_append]
  have h0 : (((copyBuffer R dst src env).1 ++ lg).map (Step.mk g)).countP
      (fun s => isDeadlineOn c s.ev) = 0 := by
    rw [List.countP_eq_zero]
    intro s hs
    rw [List.mem_map] at hs
    obtain ⟨e, he, rfl⟩ := hs
    have h1 := hno e he
    cases e <;> simp [isDeadline, isDeadlineOn] at h1 ⊢
  rw [h0]
  by_cases hc : dst = c <;> simp [isDeadlineOn, hc]

/-- The count of the steps of one goroutine that satisfy a predicate which
holds of calls of `SetReadDeadline` only: it is decided by the last step. -/
theorem countP_copier (g : Goroutine) (R : Nat) (dst src : Conn) (env : CopyEnv) (now : Nat)
    (p : Step → Bool) (hp : ∀ s : Step, p s = true → isDeadline s.ev = true) :
    ((copier R dst src env now).map (Step.mk g)).countP p
      = if p ⟨g, Event.setReadDeadline dst (now + tcpWaitTimeout)⟩ = true then 1 else 0 := by
  obtain ⟨lg, hsplit, hno, _⟩ := copier_split R dst src env now
  rw [hsplit, List.map_append, List.countP_append]
  have h0 : (((copyBuffer R dst src env).1 ++ lg).map (Step.mk g)).countP p = 0 := by
    rw [List.countP_eq_zero]
    intro s hs hps
    rw [List.mem_map] at hs
    obtain ⟨e, he, rfl⟩ := hs
    have h1 := hno e he
    have h2 := hp _ hps
    simp only at h2
    rw [h1] at h2
    cases h2
  rw [h0]
  by_cases hc : p ⟨g, Event.setReadDeadline dst (now + tcpWaitTimeout)⟩ = true <;> simp [hc]

/-- C7: in `relay(left, right)`, for every outcome of the two copies and every
interleaving of the two goroutines, exactly two calls of `SetReadDeadline`
happen: the goroutine that copies from `left` to `right` sets the read deadline
of `right` to now + 5 seconds (5 * 1000000000 nanoseconds) exactly once, and the
goroutine that copies from `right` to `left` sets the read deadline of `left`
to now + 5 seconds exactly once; when `left` and `right` are two connections,
each of them has its read deadline set exactly once.  Wherever a call of
`SetReadDeadline` stands in the run, it is the last step of its goroutine and
all the events of that goroutine's `copyBuffer`, up to the return of the buffer,
stand before it: no deadline is set before a copy has finished. -/
theorem relay_deadlines (R : Nat) (left right : Conn) (env : RelayEnv) :
    (relay R left right env).countP (fun s => isDeadline s.ev) = 2
    ∧ (relay R left right env).countP (fun s => decide (s =
        ⟨Goroutine.copyA, Event.setReadDeadline right (env.nowA + 5 * 1000000000)⟩)) = 1
    ∧ (relay R left right env).countP (fun s => decide (s =
        ⟨Goroutine.copyB, Event.setReadDeadline left (env.nowB + 5 * 1000000000)⟩)) = 1
    ∧ (relay R left right env).countP
        (fun s => decide (s.task = Goroutine.copyA) && isDeadline s.ev) = 1
    ∧ (relay R left right env).countP
        (fun s => decide (s.task = Goroutine.copyB) && isDeadline s.ev) = 1
    ∧ (left ≠ right →
        (relay R left right env).countP (fun s => isDeadlineOn right s.ev) = 1
        ∧ (relay R left right env).countP (fun s => isDeadlineOn left s.ev) = 1)
    ∧ ∀ (pre post : List Step) (g : Goroutine) (c : Conn) (t : Nat),
        relay R left right env = pre ++ ⟨g, Event.setReadDeadline c t⟩ :: post →
        (g = Goroutine.copyA ∧ c = right ∧ t = env.nowA + 5 * 1000000000
          ∧ List.IsPrefix ((copyBuffer R right left env.a).1.map (Step.mk Goroutine.copyA))
              (pre.filter (fun s => decide (s.task = Goroutine.copyA)))
          ∧ post.filter (fun s => decide (s.task = Goroutine.copyA)) = [])
        ∨ (g = Goroutine.copyB ∧ c = left ∧ t = env.nowB + 5 * 1000000000
          ∧ List.IsPrefix ((copyBuffer R left right env.b).1.map (Step.mk Goroutine.copyB))
              (pre.filter (fun s => decide (s.task = Goroutine.copyB)))
          ∧ post.filter (fun s => decide (s.task = Goroutine.copyB)) = []) := by
  have hW : tcpWaitTimeout = 5 * 1000000000 := rfl
  refine ⟨?_, ?_, ?_, ?_, ?_, ?_, ?_⟩
  · rw [relay, countP_interleave, relayA, relayB,
      countP_copier _ _ _ _ _ _ _ (fun s h => h), countP_copier _ _ _ _ _ _ _ (fun s h => h)]
    simp [isDeadline]
  · rw [relay, countP_interleave, relayA, relayB,
      countP_copier _ _ _ _ _ _ _ (fun s h => by
        simp only [decide_eq_true_eq] at h; rw [h]; rfl),
      countP_copier _ _ _ _ _ _ _ (fun s h => by
        simp only [decide_eq_true_eq] at h; rw [h]; rfl)]
    simp [hW]
  · rw [relay, countP_interleave, relayA, relayB,
      countP_copier _ _ _ _ _ _ _ (fun s h => by
        simp only [decide_eq_true_eq] at h; rw [h]; rfl),
      countP_copier _ _ _ _ _ _ _ (fun s h => by
        simp only [decide_eq_true_eq] at h; rw [h]; rfl)]
    simp [hW]
  · rw [relay, countP_interleave, relayA, relayB,
      countP_copier _ _ _ _ _ _ _ (fun s h => by
        simp only [Bool.and_eq_true] at h; exact h.2),
      countP_copier _ _ _ _ _ _ _ (fun s h => by
        simp only [Bool.and_eq_true] at h; exact h.2)]
    simp [isDeadline]
  · rw [relay, countP_interleave, relayA, relayB,
      countP_copier _ _ _ _ _ _ _ (fun s h => by
        simp only [Bool.and_eq_true] at h; exact h.2),
      countP_copier _ _ _ _ _ _ _ (fun s h => by
        simp only [Bool.and_eq_true] at h; exact h.2)]
    simp [isDeadline]
  · intro hne
    have hne2 : ¬ right = left := fun h => hne h.symm
    constructor
    · rw [relay, countP_interleave, relayA, relayB, countP_deadline_copier,
        countP_deadline_copier]
      simp [hne]
    · rw [relay, countP_interleave, relayA, relayB, countP_deadline_copier,
        countP_deadline_copier]
      simp [hne2]
  · intro pre post g c t h
    have hmem : (⟨g, Event.setReadDeadline c t⟩ : Step) ∈ relay R left right env := by
      rw [h]; simp
    have hg := (relay_steps R left right env _ hmem).1
    simp only at hg
    rcases hg with hg | hg
    · left
      subst hg
      have hf := congrArg (List.filter (fun s => decide (s.task = Goroutine.copyA))) h
      rw [filter_relay_copyA, List.filter_append, List.filter_cons_of_pos (by simp)] at hf
      obtain ⟨h1, h2, h3, h4⟩ := deadline_last _ _ _ _ _ _ _ _ _ _ hf
      exact ⟨rfl, h1, by rw [h2, hW], h3, h4⟩
    · right
      subst hg
      have hf := congrArg (List.filter (fun s => decide (s.task = Goroutine.copyB))) h
      rw [filter_relay_copyB, List.filter_append, List.filter_cons_of_pos (by simp)] at hf
      obtain ⟨h1, h2, h3, h4⟩ := deadline_last _ _ _ _ _ _ _ _ _ _ hf
      exact ⟨rfl, h1, by rw [h2, hW], h3, h4⟩

/-- C8 as amended: when the copy of a goroutine of `relay` ends with an
ignorable error (timeout, broken pipe, connection reset), `copyBuffer` returns
nil, so the error is not propagated, and that goroutine makes no call of the
logger: no log entry is emitted for the error. -/
theorem relay_ignorable_silent (R : Nat) (left right : Conn) (env : RelayEnv) (g : Goroutine)
    (e : GoError) (hg : g ≠ Goroutine.main)
    (hend : (ioCopyBuffer (copyDst left right g) (copySrc left right g)
        (env.copyEnv g).reader (env.copyEnv g).writer).2.2 = some e)
    (hign : ignorable (some e) = true) :
    (copyBuffer R (copyDst left right g) (copySrc left right g) (env.copyEnv g)).2 = none
    ∧ ∀ s ∈ relay R left right env, s.task = g →
        isLog Level.warn s.ev = false ∧ isLog Level.info s.ev = false := by
  have hret : (copyBuffer R (copyDst left right g) (copySrc left right g) (env.copyEnv g)).2
      = none := by
    rw [copyBuffer_ret, hend, hign]; simp
  refine ⟨hret, ?_⟩
  have key : ∀ (g1 : Goroutine) (dst src : Conn) (en : CopyEnv) (now : Nat),
      (copyBuffer R dst src en).2 = none →
      ∀ s ∈ (copier R dst src en now).map (Step.mk g1),
        isLog Level.warn s.ev = false ∧ isLog Level.info s.ev = false := by
    intro g1 dst src en now hn s hs
    have hio := copyLoop_isReadWrite dst src en.writer en.reader.lastData en.reader.lastErr
      en.reader.chunks 0 0
    obtain ⟨lg, hsplit, _, hlg⟩ := copier_split R dst src en now
    rw [hsplit, hlg hn, List.append_nil, copyBuffer_events, List.mem_map] at hs
    obtain ⟨ev, hev, rfl⟩ := hs
    simp only [List.cons_append, List.mem_cons, List.mem_append, List.mem_singleton,
      List.not_mem_nil, or_false] at hev
    rcases hev with rfl | (hev | rfl) | rfl
    · exact ⟨rfl, rfl⟩
    · have := hio ev hev
      cases ev <;> simp [isReadWrite, isLog] at this ⊢
    · exact ⟨rfl, rfl⟩
    · exact ⟨rfl, rfl⟩
  intro s hs hsg
  cases g with
  | main => exact absurd rfl hg
  | copyA =>
    have hm : s ∈ (relay R left right env).filter (fun s => decide (s.task = Goroutine.copyA)) :=
      List.mem_filter.mpr ⟨hs, by simp [hsg]⟩
    rw [filter_relay_copyA] at hm
    exact key _ _ _ _ _ hret s hm
  | copyB =>
    have hm : s ∈ (relay R left right env).filter (fun s => decide (s.task = Goroutine.copyB)) :=
      List.mem_filter.mpr ⟨hs, by simp [hsg]⟩
    rw [filter_relay_copyB] at hm
    exact key _ _ _ _ _ hret s hm

/-! ## The theorems on concrete runs -/

theorem handleTCPConn_dial_unreachable_witness :
    calls Event.rst (handleTCPConn 20480 sessionUnreachable) = 0
    ∧ calls Event.completeHandshake (handleTCPConn 20480 sessionUnreachable) = 0
    ∧ relayInvoked (handleTCPConn 20480 sessionUnreachable) = false :=
  have h := handleTCPConn_dial_unreachable 20480 sessionUnreachable unreachableErr rfl rfl
  ⟨h.1, h.2.1, h.2.2.1⟩

theorem handleTCPConn_dial_other_witness :
    calls Event.rst (handleTCPConn 20480 sessionRefused) = 1
    ∧ calls Event.completeHandshake (handleTCPConn 20480 sessionRefused) = 0
    ∧ relayInvoked (handleTCPConn 20480 sessionRefused) = false :=
  have h := handleTCPConn_dial_other 20480 sessionRefused refusedErr rfl rfl
  ⟨h.1, h.2.1, h.2.2.1⟩

theorem handleTCPConn_success_closes_witness :
    calls (Event.close Conn.targetConn) (handleTCPConn 20480 sessionRelayed) = 1
    ∧ calls (Event.close Conn.conn) (handleTCPConn 20480 sessionRelayed) = 1 :=
  have h := handleTCPConn_success_closes 20480 sessionRelayed ([10, 0, 0, 1], 40000) rfl rfl
  ⟨h.1, h.2.1⟩

theorem handleTCPConn_handshake_failure_witness :
    calls (Event.close Conn.targetConn) (handleTCPConn 20480 sessionNoHandshake) = 1
    ∧ relayInvoked (handleTCPConn 20480 sessionNoHandshake) = false
    ∧ calls Event.rst (handleTCPConn 20480 sessionNoHandshake) = 0
    ∧ calls (Event.close Conn.conn) (handleTCPConn 20480 sessionNoHandshake) = 0 :=
  have h := handleTCPConn_handshake_failure 20480 sessionNoHandshake ([10, 0, 0, 1], 40000)
    brokenErr rfl rfl
  ⟨h.1, h.2.1, h.2.2.1, h.2.2.2.1⟩

theorem relay_deadlines_witness :
    (relay 20480 Conn.conn Conn.targetConn timeoutRelay).countP (fun s => isDeadline s.ev) = 2
    ∧ (relay 20480 Conn.conn Conn.targetConn timeoutRelay).countP (fun s => decide (s =
        ⟨Goroutine.copyA, Event.setReadDeadline Conn.targetConn 5000000100⟩)) = 1
    ∧ (relay 20480 Conn.conn Conn.targetConn timeoutRelay).countP (fun s => decide (s =
        ⟨Goroutine.copyB, Event.setReadDeadline Conn.conn 5000000200⟩)) = 1
    ∧ (relay 20480 Conn.conn Conn.targetConn timeoutRelay).countP
        (fun s => isDeadlineOn Conn.targetConn s.ev) = 1
    ∧ (relay 20480 Conn.conn Conn.targetConn timeoutRelay).countP
        (fun s => isDeadlineOn Conn.conn s.ev) = 1
    ∧ (relay 20480 Conn.conn Conn.conn timeoutRelay).countP (fun s => isDeadline s.ev) = 2
    ∧ (relay 20480 Conn.conn Conn.conn timeoutRelay).countP
        (fun s => decide (s.task = Goroutine.copyA) && isDeadline s.ev) = 1 :=
  have h := relay_deadlines 20480 Conn.conn Conn.targetConn timeoutRelay
  have h2 := relay_deadlines 20480 Conn.conn Conn.conn timeoutRelay
  ⟨h.1, h.2.1, h.2.2.1, (h.2.2.2.2.2.1 (by decide)).1, (h.2.2.2.2.2.1 (by decide)).2,
    h2.1, h2.2.2.2.1⟩

theorem relay_ignorable_silent_witness :
    (copyBuffer 20480 Conn.targetConn Conn.conn timeoutRelay.a).2 = none
    ∧ ∀ s ∈ relay 20480 Conn.conn Conn.targetConn timeoutRelay, s.task = Goroutine.copyA →
        isLog Level.warn s.ev = false ∧ isLog Level.info s.ev = false :=
  relay_ignorable_silent 20480 Conn.conn Conn.targetConn timeoutRelay Goroutine.copyA timeoutErr
    (by decide) (by decide) (by decide)

/-- C8 as stated fails: in this relay the copy from left to right ends with a
timeout error, which is ignorable, and the whole run holds one warning entry
only, the one for the error of the other direction; no log entry names the
timeout. -/
theorem relay_ignorable_logged_counterexample :
    (ioCopyBuffer Conn.targetConn Conn.conn timeoutRelay.a.reader timeoutRelay.a.writer).2.2
        = some timeoutErr
    ∧ ignorable (some timeoutErr) = true
    ∧ (∀ s ∈ relay 20480 Conn.conn Conn.targetConn timeoutRelay,
        ∀ (lvl : Level) (f : String) (m : Option Metadata),
          s.ev ≠ Event.log lvl f m (some timeoutErr))
    ∧ (relay 20480 Conn.conn Conn.targetConn timeoutRelay).filter (fun s => isLog Level.warn s.ev)
        = [⟨Goroutine.copyB, Event.log Level.warn "[TCP] %v" none (some brokenErr)⟩] := by
  refine ⟨by decide, by decide, ?_, by decide⟩
  intro s hs lvl f m h
  have hrun : relay 20480 Conn.conn Conn.targetConn timeoutRelay =
      [(⟨Goroutine.copyB, Event.poolGet 20480 2⟩ : Step),
      ⟨Goroutine.copyA, Event.poolGet 20480 1⟩,
      ⟨Goroutine.copyA, Event.read Conn.conn [1, 2]⟩,
      ⟨Goroutine.copyB, Event.read Conn.targetConn []⟩,
      ⟨Goroutine.copyA, Event.write Conn.targetConn [1, 2] 2⟩,
      ⟨Goroutine.copyA, Event.read Conn.conn []⟩,
      ⟨Goroutine.copyA, Event.poolPut 1⟩,
      ⟨Goroutine.copyA, Event.setReadDeadline Conn.targetConn (100 + tcpWaitTimeout)⟩,
      ⟨Goroutine.copyB, Event.poolPut 2⟩,
      ⟨Goroutine.copyB, Event.log Level.warn "[TCP] %v" none (some brokenErr)⟩,
      ⟨Goroutine.copyB, Event.setReadDeadline Conn.conn (200 + tcpWaitTimeout)⟩] := by
    decide
  rw [hrun] at hs
  simp only [List.mem_cons, List.mem_singleton, List.not_mem_nil, or_false] at hs
  rcases hs with rfl | rfl | rfl | rfl | rfl | rfl | rfl | rfl | rfl | rfl | rfl <;>
    simp [brokenErr, timeoutErr] at h

end Tunnel
